import Mathlib

/-!
Shallow embedding of the chat relay in `src/server.c` together with the
roster-decoding side of `src/client.c`, and theorems settling the frozen
claims about its registry, router and session lifecycle.

Protocol text is modelled as `List Char` (the C code manipulates
NUL-terminated ASCII buffers).  The global `clients` array is modelled slot
by slot as a list of optional entries; the list length plays the role of
`MAX_CLIENTS` (the code never depends on the constant 1024 beyond it being
the array's capacity).  Side effects (`send`, `log_msg`, `close`) are
reified as an `Event` trace in the order the code performs them.
-/

namespace Ncurse

/-- Character list of a Lean string literal, used to write concrete protocol
text. -/
def chars (s : String) : List Char := s.data

/-- Mirrors `client_t` (server.c lines 34-37): a socket descriptor plus the
name buffer.  The name is empty until the first read on the connection fills
it (main sets `name[0] = 0` before registering, server.c line 201). -/
structure client_t where
  sock : Nat
  name : List Char
deriving DecidableEq

/-- The global `clients` array (server.c line 39): a sequence of slots, each
either empty (`none`) or holding a registered client. -/
abbrev Registry := List (Option client_t)

/-- Observable side effects of the server code, in program order:
`send` models `send_to_sock` (server.c lines 54-58), `logLine` models
`log_msg` writing one line to chat.log (lines 42-52, timestamp elided),
`closeConn` models `close` on a client socket. -/
inductive Event where
  | send (sock : Nat) (msg : List Char)
  | logLine (msg : List Char)
  | closeConn (sock : Nat)
deriving DecidableEq

/-- The send-to-every-registered-client loop shared by `broadcast`
(server.c lines 64-68) and `notify_userlist` (lines 98-100): one `send` per
occupied slot, in slot order. -/
def regSends (R : Registry) (msg : List Char) : List Event :=
  match R with
  | [] => []
  | none :: t => regSends t msg
  | some c :: t => Event.send c.sock msg :: regSends t msg

/-- The line `broadcast` formats (server.c line 62):
`"%s: %s\n"` applied to sender and message. -/
def outLine (sender msg : List Char) : List Char :=
  sender ++ chars ": " ++ msg ++ chars "\n"

/-- Mirrors `broadcast` (server.c lines 60-71): send the formatted line to
every registered client (all occupied slots), then log it once. -/
def broadcast (R : Registry) (sender msg : List Char) : List Event :=
  regSends R (outLine sender msg) ++ [Event.logLine (outLine sender msg)]

/-- Mirrors `find_by_name` (server.c lines 73-82): scan the slots in order
and return the first occupied slot whose name compares equal. -/
def find_by_name (R : Registry) (name : List Char) : Option client_t :=
  match R with
  | [] => none
  | none :: t => find_by_name t name
  | some c :: t => if c.name = name then some c else find_by_name t name

/-- The comma-joined name list `notify_userlist` builds by repeated `strcat`
(server.c lines 89-94): each registered entry's name followed by a comma, in
slot order. -/
def encodeCsv : List (List Char) → List Char
  | [] => []
  | n :: ns => n ++ ',' :: encodeCsv ns

/-- Names of the occupied slots, in slot order. -/
def rosterNames (R : Registry) : List (List Char) :=
  match R with
  | [] => []
  | none :: t => rosterNames t
  | some c :: t => c.name :: rosterNames t

/-- The full control payload `notify_userlist` assembles (server.c lines
86-94): the `0x01` byte, the literal `USERS:`, then the comma-joined names
with trailing comma. -/
def userlistPayload (R : Registry) : List Char :=
  chars "\x01USERS:" ++ encodeCsv (rosterNames R)

/-- Mirrors `notify_userlist` (server.c lines 84-102): build the payload
from the registered names and send it to every registered client.  Nothing
is logged. -/
def notify_userlist (R : Registry) : List Event :=
  regSends R (userlistPayload R)

/-- The slot insertion of `add_client` (server.c lines 106-111): place the
client in the first empty slot; if no slot is empty the array is left
unchanged and no error is signalled (`add_client` returns `void`). -/
def addSlot : Registry → client_t → Registry
  | [], _ => []
  | none :: t, cl => some cl :: t
  | some c :: t, cl => some c :: addSlot t cl

/-- Mirrors `add_client` (server.c lines 104-114): insert into the first
free slot (silently a no-op when full), then broadcast the userlist of the
resulting registry. -/
def add_client (R : Registry) (cl : client_t) : Registry × List Event :=
  (addSlot R cl, notify_userlist (addSlot R cl))

/-- The slot removal of `remove_client` (server.c lines 118-122): empty the
first slot holding this client (pointer comparison in C; value equality of
the modelled entry here), scanning past empty slots. -/
def rmSlot : Registry → client_t → Registry
  | [], _ => []
  | none :: t, cl => none :: rmSlot t cl
  | some c :: t, cl => if c = cl then none :: t else some c :: rmSlot t cl

/-- Mirrors `remove_client` (server.c lines 116-126): clear the slot, then
broadcast the userlist of the post-removal registry. -/
def remove_client (R : Registry) (cl : client_t) : Registry × List Event :=
  (rmSlot R cl, notify_userlist (rmSlot R cl))

/-- In C the session mutates `cli->name` through the pointer stored in the
array (server.c line 135); functionally, update the name of the first slot
holding this entry. -/
def setNameInReg : Registry → client_t → List Char → Registry
  | [], _, _ => []
  | none :: t, cl, nm => none :: setNameInReg t cl nm
  | some c :: t, cl, nm =>
      if c = cl then some (client_t.mk c.sock nm) :: t
      else some c :: setNameInReg t cl nm

/-- The private-message name scan (server.c lines 149-153): starting after
the `@`, copy characters into `target` while the current character is not a
space and fewer than `NAME_LEN-1 = 31` characters have been copied; the
first component is `target`, the second is `message = buf + i`, the
remainder from the position where the scan stopped. -/
def parseLoop : List Char → Nat → List Char × List Char
  | [], _ => ([], [])
  | c :: rest, j =>
      if c ≠ ' ' ∧ j < 31 then
        ((parseLoop rest (j + 1)).1.cons c, (parseLoop rest (j + 1)).2)
      else ([], c :: rest)

/-- Mirrors the per-message body of `handle_client` (server.c lines
146-165): a message starting with `@` is parsed, formatted as
`"(private) %s -> %s: %s\n"`, logged, sent to the resolved target when one
is found, and always echoed to the sender; any other message is handed to
`broadcast` with the sender's name. -/
def handle_message (R : Registry) (cl : client_t) (raw : List Char) : List Event :=
  match raw with
  | '@' :: rest =>
      Event.logLine (chars "(private) " ++ cl.name ++ chars " -> " ++ (parseLoop rest 0).1
          ++ chars ": " ++ (parseLoop rest 0).2 ++ chars "\n") ::
        ((match find_by_name R (parseLoop rest 0).1 with
          | some rcv => [Event.send rcv.sock (chars "(private) " ++ cl.name ++ chars " -> "
              ++ (parseLoop rest 0).1 ++ chars ": " ++ (parseLoop rest 0).2 ++ chars "\n")]
          | none => []) ++
         [Event.send cl.sock (chars "(private) " ++ cl.name ++ chars " -> "
              ++ (parseLoop rest 0).1 ++ chars ": " ++ (parseLoop rest 0).2 ++ chars "\n")])
  | _ => broadcast R cl.name raw

/-- Outcome of `main` handling one accepted connection (server.c lines
199-205). -/
structure AcceptResult where
  registry : Registry
  events : List Event
  closedConn : Bool
  sessionStarted : Bool
deriving DecidableEq

/-- Mirrors the accept handling in `main` (server.c lines 199-205): allocate
an entry with the accepted socket and empty name, call `add_client`, and
unconditionally spawn a `handle_client` session; the connection is never
closed here and no capacity check is made. -/
def acceptStep (R : Registry) (sock : Nat) : AcceptResult :=
  AcceptResult.mk (addSlot R (client_t.mk sock []))
    (notify_userlist (addSlot R (client_t.mk sock []))) false true

/-- Outcome of the name-handshake portion of a session. -/
structure SessionStart where
  registry : Registry
  active : Option client_t
  events : List Event
deriving DecidableEq

/-- Mirrors the name read at the top of `handle_client` (server.c lines
131-138).  `nameRead = none` models `recv` returning zero or an error: the
socket is closed, the entry is removed, and the session ends (line 133).
Otherwise the read bytes (at most `NAME_LEN-1`, enforced again by the
`strncpy` bound) become the name, and `"*** %s joined"` is broadcast from
`"server"` over the updated registry. -/
def joinPhase (R : Registry) (cl : client_t) (nameRead : Option (List Char)) : SessionStart :=
  match nameRead with
  | none =>
      SessionStart.mk (rmSlot R cl) none
        (Event.closeConn cl.sock :: notify_userlist (rmSlot R cl))
  | some nmRaw =>
      SessionStart.mk (setNameInReg R cl (nmRaw.take 31))
        (some (client_t.mk cl.sock (nmRaw.take 31)))
        (broadcast (setNameInReg R cl (nmRaw.take 31)) (chars "server")
          (chars "*** " ++ nmRaw.take 31 ++ chars " joined"))

/-- One connection's life from accept through the name handshake: `main`
registers the empty-named entry (emitting one userlist broadcast), then
`handle_client` performs the name read (`joinPhase`). -/
def sessionStart (R : Registry) (sock : Nat) (nameRead : Option (List Char)) : SessionStart :=
  SessionStart.mk
    (joinPhase (addSlot R (client_t.mk sock [])) (client_t.mk sock []) nameRead).registry
    (joinPhase (addSlot R (client_t.mk sock [])) (client_t.mk sock []) nameRead).active
    (notify_userlist (addSlot R (client_t.mk sock [])) ++
      (joinPhase (addSlot R (client_t.mk sock [])) (client_t.mk sock []) nameRead).events)

/-- Mirrors the teardown at the bottom of `handle_client` (server.c lines
168-173), in program order: `close(cli->sock)`, then
`broadcast("server", "*** %s left")` over the registry as it stands, then
`remove_client` (which itself broadcasts the post-removal userlist). -/
def teardown (R : Registry) (cl : client_t) : Registry × List Event :=
  (rmSlot R cl,
   Event.closeConn cl.sock ::
     (broadcast R (chars "server") (chars "*** " ++ cl.name ++ chars " left") ++
      notify_userlist (rmSlot R cl)))

/-- What the client does with one received buffer. -/
inductive RecvAction where
  | userlist (csv : List Char)
  | display (text : List Char)
deriving DecidableEq

/-- Mirrors the dispatch in `recv_thread` (client.c lines 92-100): a buffer
whose first byte is `0x01` followed by the literal `USERS:` feeds the rest
to `update_userlist`; anything else is appended to the chat pane verbatim. -/
def recvStep (buf : List Char) : RecvAction :=
  match buf with
  | '\x01' :: 'U' :: 'S' :: 'E' :: 'R' :: 'S' :: ':' :: rest => RecvAction.userlist rest
  | _ => RecvAction.display buf

/-- Comma splitting underlying `strtok(tmp, ",")` (client.c lines 72-77):
split the buffer at every comma, keeping empty pieces (they are filtered
next, matching strtok's skipping of empty tokens). -/
def splitComma : List Char → List (List Char)
  | [] => [[]]
  | c :: rest =>
      if c = ',' then [] :: splitComma rest
      else ((splitComma rest).headI.cons c) :: (splitComma rest).tail

/-- Mirrors `update_userlist` (client.c lines 65-81): the rows displayed in
the user pane are the nonempty comma-separated tokens of the payload, in
order. -/
def update_userlist (csv : List Char) : List (List Char) :=
  (splitComma csv).filter (fun t => !t.isEmpty)

/-- A wire message is a userlist control message exactly when its first byte
is `0x01` (the discriminator the client checks first, client.c line 93). -/
def isUserlistEvent : Event → Bool
  | Event.send _ ('\x01' :: _) => true
  | _ => false

/-- Recognizes transcript-sink events. -/
def isLogEvent : Event → Bool
  | Event.logLine _ => true
  | _ => false

/-- When every slot is occupied, the insertion scan of `add_client` falls
off the end of the array and leaves it unchanged. -/
lemma addSlot_full (R : Registry) (cl : client_t) (h : ∀ o ∈ R, o ≠ none) :
    addSlot R cl = R := by
  induction R with
  | nil => rfl
  | cons o t ih =>
    cases o with
    | none => exact absurd rfl (h none (by simp))
    | some c => simp [addSlot, ih (fun o ho => h o (List.mem_cons_of_mem _ ho))]

/-- Removing a freshly inserted entry restores the registry, as long as the
entry was not already present (in C this holds because the pointer is a
fresh allocation). -/
lemma rmSlot_addSlot (R : Registry) (cl : client_t) (h : some cl ∉ R) :
    rmSlot (addSlot R cl) cl = R := by
  induction R with
  | nil => rfl
  | cons o t ih =>
    cases o with
    | none => simp [addSlot, rmSlot]
    | some c =>
      have hne : c ≠ cl := fun hh => h (by simp [hh])
      simp [addSlot, rmSlot, hne, ih (fun hm => h (List.mem_cons_of_mem _ hm))]

/-- Membership in the fan-out loop: exactly the occupied slots receive the
message. -/
lemma mem_regSends {e : Event} {R : Registry} {msg : List Char} :
    e ∈ regSends R msg ↔ ∃ c : client_t, some c ∈ R ∧ e = Event.send c.sock msg := by
  induction R with
  | nil => simp [regSends]
  | cons o t ih =>
    cases o with
    | none => simpa [regSends] using ih
    | some c =>
      simp only [regSends, List.mem_cons, ih]
      constructor
      · rintro (rfl | ⟨c', hc', rfl⟩)
        · exact ⟨c, Or.inl rfl, rfl⟩
        · exact ⟨c', Or.inr hc', rfl⟩
      · rintro ⟨c', hc', rfl⟩
        rcases hc' with hc' | hc'
        · rw [Option.some.inj hc']
          exact Or.inl rfl
        · exact Or.inr ⟨c', hc', rfl⟩

/-- Userlist payloads always begin with the control byte. -/
lemma isUserlistEvent_send_payload (s : Nat) (R : Registry) :
    isUserlistEvent (Event.send s (userlistPayload R)) = true := rfl

/-- Lines broadcast from the `server` pseudo-sender begin with a letter,
never the control byte. -/
lemma isUserlistEvent_server_line (s : Nat) (msg : List Char) :
    isUserlistEvent (Event.send s (outLine (chars "server") msg)) = false := rfl

/-- Every event a `notify_userlist` emits is a userlist send. -/
lemma notify_all_userlist {e : Event} {R : Registry} (he : e ∈ notify_userlist R) :
    isUserlistEvent e = true := by
  have he' : e ∈ regSends R (userlistPayload R) := he
  rcases mem_regSends.mp he' with ⟨c, _, rfl⟩
  exact isUserlistEvent_send_payload _ _

/-- The scan of the private-message parser characterized in closed form:
the target is the run of non-space characters capped at 31, and the body is
everything from the position where the scan stopped. -/
lemma parseLoop_spec (cs : List Char) (j : Nat) :
    parseLoop cs j =
      ((cs.takeWhile (fun c => c != ' ')).take (31 - j),
       cs.drop ((cs.takeWhile (fun c => c != ' ')).take (31 - j)).length) := by
  induction cs generalizing j with
  | nil => simp [parseLoop]
  | cons c rest ih =>
    by_cases hc : c = ' '
    · subst hc
      simp [parseLoop, List.takeWhile_cons]
    · by_cases hj : j < 31
      · have h31 : 31 - j = (31 - (j + 1)) + 1 := by omega
        simp [parseLoop, hc, hj, List.takeWhile_cons, h31, ih]
      · have h0 : 31 - j = 0 := by omega
        simp [parseLoop, hc, hj, List.takeWhile_cons, h0]

/-- The `find_by_name` scan resolves a client whose name no other registered
client shares. -/
lemma find_by_name_first (R : Registry) (X : client_t) (hmem : some X ∈ R)
    (huniq : ∀ c : client_t, some c ∈ R → c.name = X.name → c = X) :
    find_by_name R X.name = some X := by
  induction R with
  | nil => cases hmem
  | cons o t ih =>
    cases o with
    | none =>
      have hm : some X ∈ t := by
        rcases List.mem_cons.mp hmem with h | h
        · cases h
        · exact h
      simpa [find_by_name] using
        ih hm (fun c hc => huniq c (List.mem_cons_of_mem _ hc))
    | some c =>
      by_cases hname : c.name = X.name
      · have hcx : c = X := huniq c (by simp) hname
        subst hcx
        simp [find_by_name]
      · have hm : some X ∈ t := by
          rcases List.mem_cons.mp hmem with h | h
          · cases Option.some.inj h
            exact absurd rfl hname
          · exact h
        simpa [find_by_name, hname] using
          ih hm (fun c' hc' => huniq c' (List.mem_cons_of_mem _ hc'))

/-- A name free of spaces is taken whole by the non-space scan. -/
lemma takeWhile_append_no_space (l r : List Char) (h : (' ' : Char) ∉ l) :
    ((l ++ ' ' :: r).takeWhile (fun c => c != ' ')) = l := by
  induction l with
  | nil => simp [List.takeWhile_cons]
  | cons a l ih =>
    have ha : a ≠ ' ' := fun hh => h (by simp [hh])
    simp [List.takeWhile_cons, ha, ih (fun hm => h (List.mem_cons_of_mem _ hm))]

/-- C1 counterexample: with every slot occupied, `acceptStep` leaves the
registry unchanged (the connection is never registered) yet still reports
no close of the connection and a session being started, contradicting the
claim that the new connection is rejected with no session started. -/
theorem c1_full_registry_counterexample :
    (acceptStep [some (client_t.mk 1 (chars "a")), some (client_t.mk 2 (chars "b"))] 3).registry
      = [some (client_t.mk 1 (chars "a")), some (client_t.mk 2 (chars "b"))] ∧
    (acceptStep [some (client_t.mk 1 (chars "a")), some (client_t.mk 2 (chars "b"))] 3).closedConn
      = false ∧
    (acceptStep [some (client_t.mk 1 (chars "a")), some (client_t.mk 2 (chars "b"))] 3).sessionStarted
      = true := by
  decide

/-- C2 counterexample: a fresh connection joining an empty registry as
`alice` (an add-then-setName sequence) broadcasts exactly one userlist
payload, and that payload is the stale `USERS:,` built before the name was
set, not the post-change roster `USERS:alice,`. -/
theorem c2_userlist_counterexample :
    ((sessionStart [none] 7 (some (chars "alice"))).events.filter isUserlistEvent)
      = [Event.send 7 (chars "\x01USERS:,")] ∧
    userlistPayload (sessionStart [none] 7 (some (chars "alice"))).registry
      = chars "\x01USERS:alice," ∧
    chars "\x01USERS:," ≠ chars "\x01USERS:alice," := by
  decide

/-- C3 counterexample: an entry whose name has not yet been set (a
`Joining` entry, empty name) is among the recipients of a broadcast
fan-out, contradicting the claim that fan-out writes only to `Active`
entries. -/
theorem c3_joining_recipient_counterexample :
    (client_t.mk 7 []).name = [] ∧
    Event.send 7 (chars "bob: hi\n")
      ∈ broadcast [some (client_t.mk 7 []), some (client_t.mk 8 (chars "bob"))]
          (chars "bob") (chars "hi") := by
  decide

/-- C4 counterexample: with no space in the 32 characters after `@`, the
scan stops at the 31-character name cap and the body is the remaining
character, not empty as the claim states. -/
theorem c4_body_empty_counterexample :
    parseLoop (List.replicate 32 'a') 0 = (List.replicate 31 'a', ['a']) ∧
    (['a'] : List Char) ≠ [] := by
  decide

/-- C5 counterexample: the message pointer starts at the delimiter space, so
the line the code formats for `"@bob hello"` from `alice` is
`"(private) alice -> bob:  hello\n"` (two spaces after the colon); the
single-space line of the claim is never sent. -/
theorem c5_private_line_counterexample :
    Event.send 2 (chars "(private) alice -> bob: hello\n")
      ∉ handle_message [some (client_t.mk 1 (chars "alice")), some (client_t.mk 2 (chars "bob"))]
          (client_t.mk 1 (chars "alice")) (chars "@bob hello") ∧
    Event.send 2 (chars "(private) alice -> bob:  hello\n")
      ∈ handle_message [some (client_t.mk 1 (chars "alice")), some (client_t.mk 2 (chars "bob"))]
          (client_t.mk 1 (chars "alice")) (chars "@bob hello") := by
  decide

/-- C7 counterexample: in the teardown of the only registered client, the
leave announcement is sent to the departing client's own socket, which is
possible only because the broadcast happens while the entry is still
registered — the claimed remove-before-announce order would leave no
recipient at all. -/
theorem c7_teardown_order_counterexample :
    (teardown [some (client_t.mk 1 (chars "alice"))] (client_t.mk 1 (chars "alice"))).2
      = [Event.closeConn 1, Event.send 1 (chars "server: *** alice left\n"),
         Event.logLine (chars "server: *** alice left\n")] ∧
    Event.send 1 (chars "server: *** alice left\n")
      ∈ (teardown [some (client_t.mk 1 (chars "alice"))] (client_t.mk 1 (chars "alice"))).2 := by
  decide

/-- C8 counterexample: a client-sent message beginning `0x01 USERS:` is
re-classified as a public broadcast and delivered reformatted as
`"mallory: ..."` (and logged); it is not delivered verbatim. -/
theorem c8_ctl_reclassified_counterexample :
    Event.send 1 (chars "mallory: \x01USERS:x\n")
      ∈ handle_message [some (client_t.mk 1 (chars "mallory"))]
          (client_t.mk 1 (chars "mallory")) (chars "\x01USERS:x") ∧
    Event.send 1 (chars "\x01USERS:x")
      ∉ handle_message [some (client_t.mk 1 (chars "mallory"))]
          (client_t.mk 1 (chars "mallory")) (chars "\x01USERS:x") := by
  decide

/-- C9 counterexample: a roster holding the single non-empty name `a,b`
decodes to the two names `a` and `b`; the original name is not recovered,
so the round trip fails for names containing a comma. -/
theorem c9_roundtrip_counterexample :
    update_userlist (encodeCsv [chars "a,b"]) = [chars "a", chars "b"] ∧
    chars "a,b" ∉ update_userlist (encodeCsv [chars "a,b"]) := by
  decide

/-- C10 counterexample: with two registered clients both named `nn`, when
the later-slot one messages its own name, `find_by_name` resolves to the
earlier-slot client, and the formatted line reaches the sender's socket
only once, not twice. -/
theorem c10_self_pm_counterexample :
    find_by_name [some (client_t.mk 1 (chars "nn")), some (client_t.mk 2 (chars "nn"))]
        (chars "nn") = some (client_t.mk 1 (chars "nn")) ∧
    (handle_message [some (client_t.mk 1 (chars "nn")), some (client_t.mk 2 (chars "nn"))]
        (client_t.mk 2 (chars "nn")) (chars "@nn hi")).count
      (Event.send 2 (chars "(private) nn -> nn:  hi\n")) = 1 := by
  decide

/-- C1 amended: when no free slot exists, the add operation silently leaves
the registry unchanged and signals no error; the caller does not close the
transport connection, still starts a session for it, and the userlist of
the unchanged registry is re-broadcast. -/
theorem c1_full_registry_amended (R : Registry) (sock : Nat)
    (h : ∀ o ∈ R, o ≠ none) :
    (acceptStep R sock).registry = R ∧
    (acceptStep R sock).closedConn = false ∧
    (acceptStep R sock).sessionStarted = true ∧
    (acceptStep R sock).events = notify_userlist R := by
  have ha := addSlot_full R (client_t.mk sock []) h
  exact ⟨by simp [acceptStep, ha], rfl, rfl, by simp [acceptStep, ha]⟩

/-- Witness for C1 amended at a concrete full registry. -/
theorem c1_full_registry_amended_witness :
    (acceptStep [some (client_t.mk 1 (chars "a"))] 2).registry
        = [some (client_t.mk 1 (chars "a"))] ∧
    (acceptStep [some (client_t.mk 1 (chars "a"))] 2).closedConn = false ∧
    (acceptStep [some (client_t.mk 1 (chars "a"))] 2).sessionStarted = true ∧
    (acceptStep [some (client_t.mk 1 (chars "a"))] 2).events
        = notify_userlist [some (client_t.mk 1 (chars "a"))] :=
  c1_full_registry_amended [some (client_t.mk 1 (chars "a"))] 2 (by decide)

/-- C3 amended: broadcast fan-out writes the formatted line to every
registered entry — including entries whose name has not yet been set
(state `Joining`) — and to nothing else; removed entries, being empty
slots, are never written to. -/
theorem c3_broadcast_recipients_amended (R : Registry) (sender msg : List Char) :
    (∀ c : client_t, some c ∈ R →
        Event.send c.sock (outLine sender msg) ∈ broadcast R sender msg) ∧
    (∀ e ∈ broadcast R sender msg,
        e = Event.logLine (outLine sender msg) ∨
        ∃ c : client_t, some c ∈ R ∧ e = Event.send c.sock (outLine sender msg)) := by
  constructor
  · intro c hc
    exact List.mem_append.mpr (Or.inl (mem_regSends.mpr ⟨c, hc, rfl⟩))
  · intro e he
    rcases List.mem_append.mp he with he | he
    · exact Or.inr (mem_regSends.mp he)
    · rcases List.mem_singleton.mp he with rfl
      exact Or.inl rfl

/-- Witness for C3 amended: a `Joining` (empty-name) entry is among the
recipients. -/
theorem c3_broadcast_recipients_amended_witness :
    Event.send 9 (outLine (chars "carol") (chars "hey"))
      ∈ broadcast [some (client_t.mk 9 [])] (chars "carol") (chars "hey") :=
  (c3_broadcast_recipients_amended [some (client_t.mk 9 [])] (chars "carol") (chars "hey")).1
    (client_t.mk 9 []) (by decide)

/-- C4 amended: the target is the maximal run of non-space characters after
the `@`, capped at `NAME_LEN-1 = 31`; the body is the remainder of the raw
bytes from the position where the scan stopped (a leading space included
when a space ended the scan).  The body is therefore empty exactly when the
scan consumed everything — when no space occurs and at most 31 characters
follow the `@`; when the 31-character cap is hit with bytes remaining, the
body is those remaining bytes, not empty. -/
theorem c4_parse_amended (cs : List Char) :
    parseLoop cs 0 =
      ((cs.takeWhile (fun c => c != ' ')).take 31,
       cs.drop ((cs.takeWhile (fun c => c != ' ')).take 31).length) :=
  parseLoop_spec cs 0

/-- C6 confirmed: a connection whose name read returns zero bytes or an
error leaves the registry exactly as it was (the transiently added entry is
removed), never becomes active, and its whole event trace consists of the
socket close and userlist control sends — no join announcement, no leave
announcement, and nothing logged. -/
theorem c6_awaitingname_disconnect (R : Registry) (sock : Nat)
    (h : some (client_t.mk sock []) ∉ R) :
    (sessionStart R sock none).registry = R ∧
    (sessionStart R sock none).active = none ∧
    ∀ e ∈ (sessionStart R sock none).events,
      e = Event.closeConn sock ∨ isUserlistEvent e = true := by
  refine ⟨?_, rfl, ?_⟩
  · simpa [sessionStart, joinPhase] using rmSlot_addSlot R (client_t.mk sock []) h
  · intro e he
    simp only [sessionStart, joinPhase] at he
    rcases List.mem_append.mp he with he | he
    · exact Or.inr (notify_all_userlist he)
    · rcases List.mem_cons.mp he with he | he
      · exact Or.inl he
      · exact Or.inr (notify_all_userlist he)

/-- Witness for C6 at a concrete one-slot registry. -/
theorem c6_awaitingname_disconnect_witness :
    (sessionStart [none] 5 none).registry = [none] ∧
    (sessionStart [none] 5 none).active = none ∧
    ∀ e ∈ (sessionStart [none] 5 none).events,
      e = Event.closeConn 5 ∨ isUserlistEvent e = true :=
  c6_awaitingname_disconnect [none] 5 (by decide)

/-- C7 amended: on disconnect of an active session the code closes the
transport handle first, then broadcasts the leave announcement while the
departing entry is still registered — so that entry is itself among the
fan-out recipients — and only then calls the remove operation, whose
userlist re-broadcast reflects the post-removal registry. -/
theorem c7_teardown_order_amended (R : Registry) (cl : client_t) (h : some cl ∈ R) :
    (teardown R cl).1 = rmSlot R cl ∧
    (teardown R cl).2
      = Event.closeConn cl.sock ::
          (broadcast R (chars "server") (chars "*** " ++ cl.name ++ chars " left") ++
           notify_userlist (rmSlot R cl)) ∧
    Event.send cl.sock (outLine (chars "server") (chars "*** " ++ cl.name ++ chars " left"))
      ∈ (teardown R cl).2 := by
  refine ⟨rfl, rfl, ?_⟩
  simp only [teardown, broadcast]
  exact List.mem_cons_of_mem _ (List.mem_append.mpr (Or.inl (List.mem_append.mpr
    (Or.inl (mem_regSends.mpr ⟨cl, h, rfl⟩)))))

/-- Witness for C7 amended: the departing client receives its own leave
line. -/
theorem c7_teardown_order_amended_witness :
    Event.send 4 (outLine (chars "server") (chars "*** " ++ chars "dave" ++ chars " left"))
      ∈ (teardown [some (client_t.mk 4 (chars "dave"))] (client_t.mk 4 (chars "dave"))).2 :=
  (c7_teardown_order_amended [some (client_t.mk 4 (chars "dave"))]
    (client_t.mk 4 (chars "dave")) (by decide)).2.2

/-- Every userlist broadcast keeps all of its events under the
control-byte filter. -/
lemma filter_userlist_notify (R : Registry) :
    (notify_userlist R).filter isUserlistEvent = notify_userlist R :=
  List.filter_eq_self.mpr (fun _ he => notify_all_userlist he)

/-- No event of a server-sender broadcast passes the control-byte
filter. -/
lemma filter_userlist_broadcast_server (R : Registry) (msg : List Char) :
    (broadcast R (chars "server") msg).filter isUserlistEvent = [] := by
  apply List.filter_eq_nil_iff.mpr
  intro e he
  rcases List.mem_append.mp he with he | he
  · rcases mem_regSends.mp he with ⟨c, _, rfl⟩
    simp [isUserlistEvent_server_line]
  · rcases List.mem_singleton.mp he with rfl
    simp [isUserlistEvent]

/-- C2 amended: each add and each remove triggers exactly one
`UserListUpdate` broadcast, reflecting the registry immediately after that
operation, in slot order; setting the name triggers none, so the single
update emitted by an add-then-setName sequence is the one taken at add
time, in which the new entry's name is still empty. -/
theorem c2_userlist_amended (R : Registry) (sock : Nat) (nm : List Char) (cl : client_t) :
    ((sessionStart R sock (some nm)).events.filter isUserlistEvent)
      = notify_userlist (addSlot R (client_t.mk sock [])) ∧
    ((remove_client R cl).2.filter isUserlistEvent) = (remove_client R cl).2 ∧
    (remove_client R cl).2 = notify_userlist (rmSlot R cl) := by
  refine ⟨?_, filter_userlist_notify (rmSlot R cl), rfl⟩
  simp only [sessionStart, joinPhase, List.filter_append]
  rw [filter_userlist_notify, filter_userlist_broadcast_server, List.append_nil]

/-- The roster-name scan takes a space-free name of at most 31 characters
whole and leaves the remainder starting at the delimiter space. -/
lemma parseLoop_name_space (nm body : List Char) (hsp : (' ' : Char) ∉ nm)
    (hlen : nm.length ≤ 31) :
    parseLoop (nm ++ ' ' :: body) 0 = (nm, ' ' :: body) := by
  have hspec := parseLoop_spec (nm ++ ' ' :: body) 0
  rw [takeWhile_append_no_space nm body hsp] at hspec
  rw [List.take_of_length_le (by omega : nm.length ≤ 31 - 0)] at hspec
  rw [List.drop_left] at hspec
  exact hspec

/-- C5 amended: sending `"@bob hello"` from active client `alice` logs the
formatted line exactly once and always echoes it to `alice`; when `bob`
resolves, the same line is also written to `bob`'s connection, and when it
does not, the events are exactly the log and the echo, with no error
signalled.  The line the code formats is
`"(private) alice -> bob:  hello\n"` — the body keeps its leading
delimiter space, so two spaces follow the colon, not one as the claim
states. -/
theorem c5_private_delivery_amended (R : Registry) (cl : client_t)
    (h : cl.name = chars "alice") :
    ((handle_message R cl (chars "@bob hello")).filter isLogEvent
        = [Event.logLine (chars "(private) alice -> bob:  hello\n")]) ∧
    Event.send cl.sock (chars "(private) alice -> bob:  hello\n")
      ∈ handle_message R cl (chars "@bob hello") ∧
    (∀ r : client_t, find_by_name R (chars "bob") = some r →
        handle_message R cl (chars "@bob hello")
          = [Event.logLine (chars "(private) alice -> bob:  hello\n"),
             Event.send r.sock (chars "(private) alice -> bob:  hello\n"),
             Event.send cl.sock (chars "(private) alice -> bob:  hello\n")]) ∧
    (find_by_name R (chars "bob") = none →
        handle_message R cl (chars "@bob hello")
          = [Event.logLine (chars "(private) alice -> bob:  hello\n"),
             Event.send cl.sock (chars "(private) alice -> bob:  hello\n")]) := by
  have hraw : chars "@bob hello" = '@' :: chars "bob hello" := rfl
  have hp : parseLoop (chars "bob hello") 0 = (chars "bob", chars " hello") := by decide
  have hout : chars "(private) " ++ cl.name ++ chars " -> " ++ chars "bob"
      ++ chars ": " ++ chars " hello" ++ chars "\n"
      = chars "(private) alice -> bob:  hello\n" := by
    rw [h]; decide
  cases hfind : find_by_name R (chars "bob") with
  | none =>
    have hm : handle_message R cl (chars "@bob hello")
        = [Event.logLine (chars "(private) alice -> bob:  hello\n"),
           Event.send cl.sock (chars "(private) alice -> bob:  hello\n")] := by
      rw [hraw]
      simp only [handle_message, hp, hfind, hout]
      simp
    refine ⟨?_, ?_, ?_, fun _ => hm⟩
    · simp [hm, isLogEvent]
    · simp [hm]
    · intro r hr
      cases hr
  | some r =>
    have hm : handle_message R cl (chars "@bob hello")
        = [Event.logLine (chars "(private) alice -> bob:  hello\n"),
           Event.send r.sock (chars "(private) alice -> bob:  hello\n"),
           Event.send cl.sock (chars "(private) alice -> bob:  hello\n")] := by
      rw [hraw]
      simp only [handle_message, hp, hfind, hout]
      simp
    refine ⟨?_, ?_, ?_, ?_⟩
    · simp [hm, isLogEvent]
    · simp [hm]
    · intro r' hr'
      cases Option.some.inj hr'
      exact hm
    · intro h0
      cases h0

/-- Witness for C5 amended: with `bob` active the line reaches `bob` and
is echoed to `alice`. -/
theorem c5_private_delivery_amended_witness :
    handle_message [some (client_t.mk 1 (chars "alice")), some (client_t.mk 2 (chars "bob"))]
        (client_t.mk 1 (chars "alice")) (chars "@bob hello")
      = [Event.logLine (chars "(private) alice -> bob:  hello\n"),
         Event.send (client_t.mk 2 (chars "bob")).sock (chars "(private) alice -> bob:  hello\n"),
         Event.send (client_t.mk 1 (chars "alice")).sock
           (chars "(private) alice -> bob:  hello\n")] :=
  (c5_private_delivery_amended
      [some (client_t.mk 1 (chars "alice")), some (client_t.mk 2 (chars "bob"))]
      (client_t.mk 1 (chars "alice")) rfl).2.2.1
    (client_t.mk 2 (chars "bob")) (by decide)

/-- C8 amended: a client-inbound message beginning with the `0x01` byte is
not special-cased by the server: it is re-classified as a public broadcast
and delivered reformatted with the sender's name prepended.  Only
server-originated userlist updates are delivered verbatim — they are sent
directly to every registered connection without passing through message
classification — and the receiving client consumes any buffer beginning
`0x01 USERS:` as a roster update, never re-classifying it. -/
theorem c8_ctl_amended (R : Registry) (cl : client_t) (rest csv : List Char) :
    handle_message R cl ('\x01' :: rest) = broadcast R cl.name ('\x01' :: rest) ∧
    notify_userlist R = regSends R (userlistPayload R) ∧
    recvStep (chars "\x01USERS:" ++ csv) = RecvAction.userlist csv :=
  ⟨rfl, rfl, rfl⟩

/-- Splitting at commas recovers a comma-free name placed before the first
comma. -/
lemma splitComma_append_name (n rest : List Char) (h : (',' : Char) ∉ n) :
    splitComma (n ++ ',' :: rest) = n :: splitComma rest := by
  induction n with
  | nil => simp [splitComma]
  | cons a n ih =>
    have ha : a ≠ ',' := fun hh => h (by simp [hh])
    simp [splitComma, ha, ih (fun hm => h (List.mem_cons_of_mem _ hm))]

/-- Decoding inverts encoding for rosters of non-empty comma-free names. -/
lemma update_encode : ∀ (names : List (List Char)),
    (∀ n ∈ names, n ≠ [] ∧ (',' : Char) ∉ n) →
    update_userlist (encodeCsv names) = names := by
  intro names
  induction names with
  | nil => intro _; rfl
  | cons n ns ih =>
    intro h
    have hn := h n (by simp)
    unfold update_userlist
    unfold encodeCsv
    rw [splitComma_append_name n (encodeCsv ns) hn.2]
    rw [List.filter_cons]
    have hne : (!(n.isEmpty)) = true := by
      cases n with
      | nil => exact absurd rfl hn.1
      | cons a t => rfl
    rw [if_pos hne]
    have ht := ih (fun m hm => h m (List.mem_cons_of_mem _ hm))
    unfold update_userlist at ht
    rw [ht]

/-- C9 amended: for every roster of non-empty names none of which contains
a comma, encoding it as the `0x01 USERS:` control line and decoding on the
receiving side (split on commas, drop empty tokens) yields back exactly the
original names, in order — hence the same set regardless of the order the
roster was encoded in.  Names containing a comma are the sole exception
(they split apart, see the counterexample). -/
theorem c9_roundtrip_amended (names : List (List Char))
    (h : ∀ n ∈ names, n ≠ [] ∧ (',' : Char) ∉ n) :
    recvStep (chars "\x01USERS:" ++ encodeCsv names)
      = RecvAction.userlist (encodeCsv names) ∧
    update_userlist (encodeCsv names) = names :=
  ⟨rfl, update_encode names h⟩

/-- Witness for C9 amended at the roster of the claim. -/
theorem c9_roundtrip_amended_witness :
    recvStep (chars "\x01USERS:" ++ encodeCsv [chars "alice", chars "bob"])
      = RecvAction.userlist (encodeCsv [chars "alice", chars "bob"]) ∧
    update_userlist (encodeCsv [chars "alice", chars "bob"])
      = [chars "alice", chars "bob"] :=
  c9_roundtrip_amended [chars "alice", chars "bob"] (by decide)

/-- C10 amended: when a registered client X whose space-free name (at most
31 bytes) is held by no other registered client sends a private message to
its own name, `find_by_name` resolves to X itself and the formatted line is
written to X's connection twice — once as the resolved target, once as the
sender echo — and logged exactly once. -/
theorem c10_self_pm_amended (R : Registry) (X : client_t) (body : List Char)
    (hmem : some X ∈ R)
    (huniq : ∀ c : client_t, some c ∈ R → c.name = X.name → c = X)
    (hsp : (' ' : Char) ∉ X.name) (hlen : X.name.length ≤ 31) :
    find_by_name R X.name = some X ∧
    handle_message R X ('@' :: (X.name ++ ' ' :: body))
      = [Event.logLine (chars "(private) " ++ X.name ++ chars " -> " ++ X.name
           ++ chars ": " ++ (' ' :: body) ++ chars "\n"),
         Event.send X.sock (chars "(private) " ++ X.name ++ chars " -> " ++ X.name
           ++ chars ": " ++ (' ' :: body) ++ chars "\n"),
         Event.send X.sock (chars "(private) " ++ X.name ++ chars " -> " ++ X.name
           ++ chars ": " ++ (' ' :: body) ++ chars "\n")] := by
  have hfind := find_by_name_first R X hmem huniq
  refine ⟨hfind, ?_⟩
  have hparse := parseLoop_name_space X.name body hsp hlen
  simp only [handle_message, hparse, hfind]
  simp

/-- Witness for C10 amended: a uniquely named client messaging itself. -/
theorem c10_self_pm_amended_witness :
    find_by_name [some (client_t.mk 3 (chars "zed"))] (client_t.mk 3 (chars "zed")).name
      = some (client_t.mk 3 (chars "zed")) ∧
    handle_message [some (client_t.mk 3 (chars "zed"))] (client_t.mk 3 (chars "zed"))
        ('@' :: ((client_t.mk 3 (chars "zed")).name ++ ' ' :: chars "hi"))
      = [Event.logLine (chars "(private) " ++ (client_t.mk 3 (chars "zed")).name
           ++ chars " -> " ++ (client_t.mk 3 (chars "zed")).name
           ++ chars ": " ++ (' ' :: chars "hi") ++ chars "\n"),
         Event.send (client_t.mk 3 (chars "zed")).sock
           (chars "(private) " ++ (client_t.mk 3 (chars "zed")).name
             ++ chars " -> " ++ (client_t.mk 3 (chars "zed")).name
             ++ chars ": " ++ (' ' :: chars "hi") ++ chars "\n"),
         Event.send (client_t.mk 3 (chars "zed")).sock
           (chars "(private) " ++ (client_t.mk 3 (chars "zed")).name
             ++ chars " -> " ++ (client_t.mk 3 (chars "zed")).name
             ++ chars ": " ++ (' ' :: chars "hi") ++ chars "\n")] :=
  c10_self_pm_amended [some (client_t.mk 3 (chars "zed"))] (client_t.mk 3 (chars "zed"))
    (chars "hi") (by decide)
    (fun c hc _ => Option.some.inj (List.mem_singleton.mp hc))
    (by decide) (by decide)

end Ncurse
